import Mathlib

/-
Verification of the semicolon checker rule (src/oxc-contrib/semi.rs).

The Rust rule is shallowly embedded below. Source text is modelled as a
list of characters; byte offsets of the Rust code become character
indices. Spans are pairs of Nat offsets; in the source they are u32
pairs, so theorems that need the u32 range carry it as a hypothesis.
Character classes (whitespace, alphanumeric) are modelled with the Lean
ASCII classifiers, standing in for the Rust classifiers. The parent
chain that the Rust code walks through parent_node is passed in as an
explicit list of ancestor nodes, innermost first.
-/

namespace Semi

/-- Span start and end offsets into the source text, half open. -/
structure Span where
  start : Nat
  «end» : Nat
  deriving DecidableEq

/-- The node kinds distinguished by the rule. Program and BlockStatement
carry the spans of the statements of their body, which is all the rule
reads from them. ExportNamedDeclaration carries whether a declaration is
attached, ExportDefaultDeclaration whether it wraps an expression. -/
inductive Kind where
  | expressionStatement
  | variableDeclaration
  | returnStatement
  | throwStatement
  | breakStatement
  | continueStatement
  | importDeclaration
  | exportNamedDeclaration (hasDeclaration : Bool)
  | exportDefaultDeclaration (isExpressionKind : Bool)
  | exportAllDeclaration
  | program (body : List Span)
  | blockStatement (body : List Span)
  | functionDeclaration
  | classDeclaration
  | ifStatement
  | whileStatement
  | forStatement
  | forInStatement
  | forOfStatement
  | doWhileStatement
  | tryStatement
  | switchStatement
  | otherKind
  deriving DecidableEq

/-- An AST node as the rule sees it: a kind tag and a span. -/
structure AstNode where
  kind : Kind
  span : Span
  deriving DecidableEq

/-- The lint context: the source text and the full node list used by the
span equality scan of find_next_in_body. -/
structure LintContext where
  sourceText : List Char
  nodes : List AstNode
  deriving DecidableEq

/-- The two policy modes. -/
inductive SemiMode where
  | never
  | always
  deriving DecidableEq

/-- A textual edit: delete a span or insert text right after a span. -/
inductive Fix where
  | delete (span : Span)
  | insertAfter (span : Span) (text : List Char)
  deriving DecidableEq

/-- The two diagnostic messages of the rule. -/
inductive Message where
  | unnecessarySemicolon
  | missingSemicolon
  deriving DecidableEq

/-- One diagnostic with its label span and its fix. -/
structure Diagnostic where
  message : Message
  label : Span
  fix : Fix
  deriving DecidableEq

/-- The backquote character, Rust literal in the hazard list. -/
def backquoteChar : Char := Char.ofNat 96

/-- The closing brace character, Rust literal in the continuable list. -/
def rbraceChar : Char := Char.ofNat 125

/-- ctx.source_range(span): the slice of the source text under a span. -/
def source_range (ctx : LintContext) (s : Span) : List Char :=
  (ctx.sourceText.drop s.start).take (s.«end» - s.start)

/-- Rust str::trim_start on the model text. -/
def trimStart (l : List Char) : List Char :=
  l.dropWhile Char.isWhitespace

/-- Rust str::trim_end on the model text. -/
def trimEnd (l : List Char) : List Char :=
  (l.reverse.dropWhile Char.isWhitespace).reverse

/-- Rust str::ends_with for a single character. -/
def endsWithChar (l : List Char) (c : Char) : Bool :=
  l.getLast? == some c

/-- source.trim_end().ends_with of the semicolon, the has_semicolon test
of check_statement_semi. -/
def hasSemicolonText (l : List Char) : Bool :=
  endsWithChar (trimEnd l) ';'

/-- next_source.starts_with of the hazard characters from
is_semicolon_required. -/
def startsWithHazardChar (l : List Char) : Bool :=
  match l with
  | [] => false
  | c :: _ =>
    c == '(' || c == '[' || c == backquoteChar || c == '+' || c == '-' ||
    c == '/' || c == '*' || c == '%'

/-- The character class of the ends_with closure in
is_semicolon_required: alphanumeric or a closing bracket, underscore or
dollar. -/
def isContinuableChar (c : Char) : Bool :=
  c.isAlphanum || c == ')' || c == ']' || c == rbraceChar || c == '_' || c == '$'

/-- current_source.ends_with of the continuable class. Rust ends_with
with a predicate is false on the empty string. -/
def endsWithContinuable (l : List Char) : Bool :=
  match l.getLast? with
  | some c => isContinuableChar c
  | none => false

/-- Rust str::rfind for one character: the index of the last occurrence. -/
def rfindIdx : List Char → Char → Option Nat
  | [], _ => none
  | x :: xs, c =>
    match rfindIdx xs c with
    | some i => some (i + 1)
    | none => if x == c then some 0 else none

/-- First value outside the u32 range; u32::try_from(pos) succeeds
exactly when pos is below this bound. -/
def u32Bound : Nat := 4294967296

/-- Semi::find_semicolon_position: rfind the last semicolon of the
source slice and convert its relative index with u32::try_from, which
the code guards with a question mark so that failure yields None. -/
def find_semicolon_position (ctx : LintContext) (span : Span) : Option Span :=
  match rfindIdx (source_range ctx span) ';' with
  | some pos =>
    if pos < u32Bound then
      some ⟨span.start + pos, span.start + pos + 1⟩
    else none
  | none => none

/-- The span containment test of find_next_in_body:
stmt.span().start <= target.start and target.end <= stmt.span().end. -/
def containsSpan (s t : Span) : Bool :=
  decide (s.start ≤ t.start) && decide (t.«end» ≤ s.«end»)

/-- Semi::find_next_in_body: locate the first body element whose span
contains the target span, and if it is not last, resolve the node of
the following element by a span equality scan over all nodes. -/
def find_next_in_body (ctx : LintContext) (body : List Span)
    (target_node : AstNode) : Option AstNode :=
  let target_span := target_node.span
  match body.findIdx? (fun stmt => containsSpan stmt target_span) with
  | some index =>
    if index + 1 < body.length then
      match body[index + 1]? with
      | some next_stmt => ctx.nodes.find? (fun n => n.span == next_stmt)
      | none => none
    else none
  | none => none

/-- The body extracted by the Program and BlockStatement arms of the
ancestor walk in Semi::get_next_statement; none for every other kind,
which the walk skips. -/
def containerBody : Kind → Option (List Span)
  | Kind.program body => some body
  | Kind.blockStatement body => some body
  | _ => none

/-- Semi::get_next_statement: ascend the parent chain until the first
Program or BlockStatement and search its body; the chain is given as
the list of ancestors, innermost first. -/
def get_next_statement (ctx : LintContext) (node : AstNode) :
    List AstNode → Option AstNode
  | [] => none
  | parent :: rest =>
    match containerBody parent.kind with
    | some body => find_next_in_body ctx body node
    | none => get_next_statement ctx node rest

/-- Semi::is_semicolon_required: the ASI hazard predicate. -/
def is_semicolon_required (ctx : LintContext) (node : AstNode)
    (ancestors : List AstNode) (is_expression_statement : Bool) : Bool :=
  match get_next_statement ctx node ancestors with
  | some next =>
    let next_source := trimStart (source_range ctx next.span)
    if startsWithHazardChar next_source then
      if is_expression_statement then true
      else
        let current_source := trimEnd (source_range ctx node.span)
        endsWithContinuable current_source
    else false
  | none => false

/-- Semi::should_have_semicolon: the always mode predicate. -/
def should_have_semicolon (node : AstNode) : Bool :=
  match node.kind with
  | Kind.blockStatement _ => false
  | Kind.functionDeclaration => false
  | Kind.classDeclaration => false
  | Kind.ifStatement => false
  | Kind.whileStatement => false
  | Kind.forStatement => false
  | Kind.forInStatement => false
  | Kind.forOfStatement => false
  | Kind.doWhileStatement => false
  | Kind.tryStatement => false
  | Kind.switchStatement => false
  | _ => true

/-- Semi::check_statement_semi: the policy engine for one node. -/
def check_statement_semi (mode : SemiMode) (ctx : LintContext)
    (node : AstNode) (ancestors : List AstNode) (span : Span)
    (is_expression_statement : Bool) : Option Diagnostic :=
  let source := source_range ctx span
  let has_semicolon := hasSemicolonText source
  match mode with
  | SemiMode.never =>
    if has_semicolon then
      if ! is_semicolon_required ctx node ancestors is_expression_statement then
        match find_semicolon_position ctx span with
        | some semi_span =>
          some ⟨Message.unnecessarySemicolon, semi_span, Fix.delete semi_span⟩
        | none => none
      else none
    else
      if is_semicolon_required ctx node ancestors is_expression_statement then
        some ⟨Message.missingSemicolon, ⟨span.«end», span.«end»⟩,
          Fix.insertAfter span [';']⟩
      else none
  | SemiMode.always =>
    if !has_semicolon && should_have_semicolon node then
      some ⟨Message.missingSemicolon, ⟨span.«end», span.«end»⟩,
        Fix.insertAfter span [';']⟩
    else none

/-- Rule::run for Semi: dispatch over the node kind; zero or one
diagnostic per visited node. -/
def run (mode : SemiMode) (ctx : LintContext) (node : AstNode)
    (ancestors : List AstNode) : Option Diagnostic :=
  match node.kind with
  | Kind.expressionStatement =>
    check_statement_semi mode ctx node ancestors node.span true
  | Kind.variableDeclaration =>
    check_statement_semi mode ctx node ancestors node.span false
  | Kind.returnStatement =>
    check_statement_semi mode ctx node ancestors node.span false
  | Kind.throwStatement =>
    check_statement_semi mode ctx node ancestors node.span false
  | Kind.breakStatement =>
    check_statement_semi mode ctx node ancestors node.span false
  | Kind.continueStatement =>
    check_statement_semi mode ctx node ancestors node.span false
  | Kind.importDeclaration =>
    check_statement_semi mode ctx node ancestors node.span false
  | Kind.exportNamedDeclaration hasDecl =>
    if hasDecl then none
    else check_statement_semi mode ctx node ancestors node.span false
  | Kind.exportDefaultDeclaration isExpr =>
    if isExpr then check_statement_semi mode ctx node ancestors node.span false
    else none
  | Kind.exportAllDeclaration =>
    check_statement_semi mode ctx node ancestors node.span false
  | _ => none

/-- Checkable kinds as the specification words them: the kinds for
which the dispatch of run reaches check_statement_semi. -/
def checkableSpec : Kind → Bool
  | Kind.expressionStatement => true
  | Kind.variableDeclaration => true
  | Kind.returnStatement => true
  | Kind.throwStatement => true
  | Kind.breakStatement => true
  | Kind.continueStatement => true
  | Kind.importDeclaration => true
  | Kind.exportNamedDeclaration hasDecl => !hasDecl
  | Kind.exportDefaultDeclaration isExpr => isExpr
  | Kind.exportAllDeclaration => true
  | _ => false

/-- Expression likeness as the specification words it: only plain
expression statements. -/
def isExpressionLikeSpec : Kind → Bool
  | Kind.expressionStatement => true
  | _ => false


theorem rfindIdx_lt_length : ∀ {l : List Char} {c : Char} {p : Nat},
    rfindIdx l c = some p → p < l.length := by
  intro l
  induction l with
  | nil => intro c p h; simp [rfindIdx] at h
  | cons x xs ih =>
    intro c p h
    simp only [rfindIdx] at h
    cases hr : rfindIdx xs c with
    | some i =>
      rw [hr] at h
      simp at h
      subst h
      simpa using Nat.succ_lt_succ (ih hr)
    | none =>
      rw [hr] at h
      by_cases hx : (x == c) = true
      · simp [hx] at h; subst h; simp
      · simp [hx] at h

theorem rfindIdx_getElem : ∀ {l : List Char} {c : Char} {p : Nat},
    rfindIdx l c = some p → l[p]? = some c := by
  intro l
  induction l with
  | nil => intro c p h; simp [rfindIdx] at h
  | cons x xs ih =>
    intro c p h
    simp only [rfindIdx] at h
    cases hr : rfindIdx xs c with
    | some i =>
      rw [hr] at h
      simp at h
      subst h
      simpa using ih hr
    | none =>
      rw [hr] at h
      by_cases hx : (x == c) = true
      · simp [hx] at h
        subst h
        simp [eq_of_beq hx]
      · simp [hx] at h

theorem rfindIdx_exists_of_mem : ∀ {l : List Char} {c : Char},
    c ∈ l → ∃ p, rfindIdx l c = some p := by
  intro l
  induction l with
  | nil => intro c h; simp at h
  | cons x xs ih =>
    intro c h
    cases hr : rfindIdx xs c with
    | some i => exact ⟨i + 1, by simp [rfindIdx, hr]⟩
    | none =>
      have hxc : c = x := by
        rcases List.mem_cons.mp h with h1 | h2
        · exact h1
        · obtain ⟨p, hp⟩ := ih h2
          rw [hp] at hr; cases hr
      subst hxc
      exact ⟨0, by simp [rfindIdx, hr]⟩

theorem mem_of_getLast?_eq {l : List Char} {c : Char}
    (h : l.getLast? = some c) : c ∈ l := by
  induction l with
  | nil => simp at h
  | cons x xs ih =>
    cases xs with
    | nil => simp_all
    | cons y ys =>
      rw [List.getLast?_cons_cons] at h
      exact List.mem_cons_of_mem _ (ih h)

theorem mem_of_mem_trimEnd {l : List Char} {c : Char}
    (h : c ∈ trimEnd l) : c ∈ l := by
  rw [trimEnd, List.mem_reverse] at h
  exact List.mem_reverse.mp (List.Sublist.mem h (List.dropWhile_sublist _))

theorem mem_of_hasSemicolonText {l : List Char}
    (h : hasSemicolonText l = true) : ';' ∈ l := by
  rw [hasSemicolonText, endsWithChar, beq_iff_eq] at h
  exact mem_of_mem_trimEnd (mem_of_getLast?_eq h)

theorem length_source_range (ctx : LintContext) (s : Span) :
    (source_range ctx s).length ≤ s.«end» - s.start := by
  simp [source_range]

theorem hasSemicolonText_concat_semi (l : List Char) :
    hasSemicolonText (l ++ [';']) = true := by
  have hdrop : List.dropWhile Char.isWhitespace (';' :: l.reverse)
      = ';' :: l.reverse := by
    rw [List.dropWhile_cons]
    simp
  rw [hasSemicolonText, trimEnd, endsWithChar, List.reverse_append]
  simp only [List.reverse_cons, List.reverse_nil, List.nil_append,
    List.singleton_append, hdrop]
  simp [List.getLast?_concat]

theorem rfindIdx_concat_semi (l : List Char) :
    rfindIdx (l ++ [';']) ';' = some l.length := by
  induction l with
  | nil => simp [rfindIdx]
  | cons x xs ih => simp [rfindIdx, ih]

theorem get_next_statement_skip (ctx : LintContext) (node : AstNode) :
    ∀ (pre tail : List AstNode),
    (∀ a ∈ pre, containerBody a.kind = none) →
    get_next_statement ctx node (pre ++ tail) =
      get_next_statement ctx node tail := by
  intro pre
  induction pre with
  | nil => intro tail _; simp
  | cons a pre2 ih =>
    intro tail hpre
    have ha : containerBody a.kind = none := hpre a (by simp)
    simp only [List.cons_append, get_next_statement, ha]
    exact ih tail (fun x hx => hpre x (by simp [hx]))

/-- Claim C2: the hazard predicate is true exactly when a next statement
exists, its left trimmed text begins with a hazard character, and either
the current node is an expression statement or its right trimmed text
ends with a continuable character. -/
theorem hazard_predicate_iff (ctx : LintContext) (node : AstNode)
    (ancestors : List AstNode) (is_expression_statement : Bool) :
    is_semicolon_required ctx node ancestors is_expression_statement = true ↔
      ∃ next, get_next_statement ctx node ancestors = some next ∧
        startsWithHazardChar (trimStart (source_range ctx next.span)) = true ∧
        (is_expression_statement = true ∨
          endsWithContinuable (trimEnd (source_range ctx node.span)) = true) := by
  unfold is_semicolon_required
  cases hn : get_next_statement ctx node ancestors with
  | none => simp
  | some next =>
    cases hs : startsWithHazardChar (trimStart (source_range ctx next.span)) <;>
      cases is_expression_statement <;>
        cases he : endsWithContinuable (trimEnd (source_range ctx node.span)) <;>
          simp_all

/-- Claim C4: in always mode a node with a trailing semicolon is never
flagged, a node without one is flagged exactly when the always mode
predicate holds, and that predicate is false exactly for the block,
function, class and compound control flow kinds. -/
theorem always_mode_policy (ctx : LintContext) (node : AstNode)
    (ancestors : List AstNode) (span : Span) (isExpr : Bool) :
    (hasSemicolonText (source_range ctx span) = true →
      check_statement_semi SemiMode.always ctx node ancestors span isExpr = none) ∧
    (hasSemicolonText (source_range ctx span) = false →
      check_statement_semi SemiMode.always ctx node ancestors span isExpr =
        (if should_have_semicolon node then
          some ⟨Message.missingSemicolon, ⟨span.«end», span.«end»⟩,
            Fix.insertAfter span [';']⟩
        else none)) ∧
    (should_have_semicolon node = false ↔
      ((∃ b, node.kind = Kind.blockStatement b) ∨
        node.kind = Kind.functionDeclaration ∨ node.kind = Kind.classDeclaration ∨
        node.kind = Kind.ifStatement ∨ node.kind = Kind.whileStatement ∨
        node.kind = Kind.forStatement ∨ node.kind = Kind.forInStatement ∨
        node.kind = Kind.forOfStatement ∨ node.kind = Kind.doWhileStatement ∨
        node.kind = Kind.tryStatement ∨ node.kind = Kind.switchStatement)) := by
  refine ⟨?_, ?_, ?_⟩
  · intro h; simp [check_statement_semi, h]
  · intro h
    cases hs : should_have_semicolon node <;> simp [check_statement_semi, h, hs]
  · cases hk : node.kind <;> simp [should_have_semicolon, hk]

/-- Claim C5: the dispatch of run reaches the policy engine exactly for
the checkable kinds, passing the expression likeness flag only for plain
expression statements, and yields no diagnostic for any other kind in
either mode. -/
theorem run_dispatch (mode : SemiMode) (ctx : LintContext) (node : AstNode)
    (ancestors : List AstNode) :
    run mode ctx node ancestors =
      if checkableSpec node.kind then
        check_statement_semi mode ctx node ancestors node.span
          (isExpressionLikeSpec node.kind)
      else none := by
  cases hk : node.kind <;>
    simp [run, checkableSpec, isExpressionLikeSpec, hk] <;>
    (rename_i b; cases b) <;> simp

/-- Claim C9: every checkable kind satisfies the always mode predicate,
so in always mode a checkable node without a trailing semicolon is
always flagged and the false branch of the predicate is unreachable
from the dispatch. -/
theorem checkable_always_flagged (ctx : LintContext) (node : AstNode)
    (ancestors : List AstNode) (h : checkableSpec node.kind = true) :
    should_have_semicolon node = true ∧
    (hasSemicolonText (source_range ctx node.span) = false →
      run SemiMode.always ctx node ancestors =
        some ⟨Message.missingSemicolon, ⟨node.span.«end», node.span.«end»⟩,
          Fix.insertAfter node.span [';']⟩) := by
  cases hk : node.kind <;> rw [hk] at h <;> simp [checkableSpec] at h <;>
    refine ⟨by simp [should_have_semicolon, hk], fun hsemi => ?_⟩ <;>
    simp_all [run, check_statement_semi, should_have_semicolon]

/-- Claim C1: the four cases of never mode. With a trailing semicolon
and no hazard, exactly one unnecessary semicolon diagnostic anchored at
the last semicolon found by the reverse scan, with a one character
delete fix; with a hazard, nothing. Without a trailing semicolon and a
hazard, exactly one missing semicolon diagnostic at a zero width span
at the node end, with an insert fix after the span; without a hazard,
nothing. -/
theorem never_mode_policy (ctx : LintContext) (node : AstNode)
    (ancestors : List AstNode) (span : Span) (isExpr : Bool)
    (hspan : span.«end» < u32Bound) :
    (hasSemicolonText (source_range ctx span) = true →
      is_semicolon_required ctx node ancestors isExpr = false →
      ∃ pos, rfindIdx (source_range ctx span) ';' = some pos ∧
        check_statement_semi SemiMode.never ctx node ancestors span isExpr =
          some ⟨Message.unnecessarySemicolon,
            ⟨span.start + pos, span.start + pos + 1⟩,
            Fix.delete ⟨span.start + pos, span.start + pos + 1⟩⟩) ∧
    (hasSemicolonText (source_range ctx span) = true →
      is_semicolon_required ctx node ancestors isExpr = true →
      check_statement_semi SemiMode.never ctx node ancestors span isExpr =
        none) ∧
    (hasSemicolonText (source_range ctx span) = false →
      is_semicolon_required ctx node ancestors isExpr = true →
      check_statement_semi SemiMode.never ctx node ancestors span isExpr =
        some ⟨Message.missingSemicolon, ⟨span.«end», span.«end»⟩,
          Fix.insertAfter span [';']⟩) ∧
    (hasSemicolonText (source_range ctx span) = false →
      is_semicolon_required ctx node ancestors isExpr = false →
      check_statement_semi SemiMode.never ctx node ancestors span isExpr =
        none) := by
  refine ⟨?_, ?_, ?_, ?_⟩
  · intro hsemi hreq
    obtain ⟨pos, hpos⟩ := rfindIdx_exists_of_mem (mem_of_hasSemicolonText hsemi)
    have hlt : pos < u32Bound := by
      have h1 := rfindIdx_lt_length hpos
      have h2 := length_source_range ctx span
      have hb : u32Bound = 4294967296 := rfl
      omega
    refine ⟨pos, hpos, ?_⟩
    simp [check_statement_semi, hsemi, hreq, find_semicolon_position, hpos, hlt]
  · intro hsemi hreq
    simp [check_statement_semi, hsemi, hreq]
  · intro hsemi hreq
    simp [check_statement_semi, hsemi, hreq]
  · intro hsemi hreq
    simp [check_statement_semi, hsemi, hreq]

/-- Claim C6: when the relative index of the last semicolon does not fit
in a u32, the locator returns none and the never mode check emits no
diagnostic for the occurrence instead of failing; the embedded functions
are total by construction. -/
theorem overflow_skip (ctx : LintContext) (node : AstNode)
    (ancestors : List AstNode) (span : Span) (isExpr : Bool) (pos : Nat)
    (hfind : rfindIdx (source_range ctx span) ';' = some pos)
    (hbig : u32Bound ≤ pos)
    (hsemi : hasSemicolonText (source_range ctx span) = true)
    (hreq : is_semicolon_required ctx node ancestors isExpr = false) :
    find_semicolon_position ctx span = none ∧
    check_statement_semi SemiMode.never ctx node ancestors span isExpr =
      none := by
  have hnone : find_semicolon_position ctx span = none := by
    simp [find_semicolon_position, hfind, Nat.not_lt.mpr hbig]
  exact ⟨hnone, by simp [check_statement_semi, hsemi, hreq, hnone]⟩

/-- Claim C3: a node contained in the last element of the statement list
of the first enclosing Program or BlockStatement has no next statement,
whatever lies above that container, and is therefore never hazardous. -/
theorem last_statement_no_next (ctx : LintContext) (node : AstNode)
    (pre : List AstNode) (container : AstNode) (rest : List AstNode)
    (body : List Span)
    (hpre : ∀ a ∈ pre, containerBody a.kind = none)
    (hcont : containerBody container.kind = some body)
    (hlast : body.findIdx? (fun stmt => containsSpan stmt node.span) =
      some (body.length - 1)) :
    get_next_statement ctx node (pre ++ container :: rest) = none ∧
    ∀ e, is_semicolon_required ctx node (pre ++ container :: rest) e =
      false := by
  have hmain : get_next_statement ctx node (pre ++ container :: rest) =
      none := by
    rw [get_next_statement_skip ctx node pre (container :: rest) hpre]
    simp only [get_next_statement, hcont]
    cases body with
    | nil => simp at hlast
    | cons s ss =>
      simp only [find_next_in_body]
      simp only [List.length_cons, Nat.add_sub_cancel] at hlast
      rw [hlast]
      simp
  exact ⟨hmain, fun e => by simp [is_semicolon_required, hmain]⟩

/-- Claim C10: for a node nested under non container ancestors, the
resolver picks the first statement list element of the first enclosing
container that contains the node span and returns the node of the
following element, and the hazard predicate compares the trailing text
of the nested node itself with the leading text of that element. -/
theorem nested_node_hazard (ctx : LintContext) (node : AstNode)
    (pre : List AstNode) (container : AstNode) (rest : List AstNode)
    (body : List Span) (i : Nat) (nextSpan : Span) (next : AstNode)
    (hpre : ∀ a ∈ pre, containerBody a.kind = none)
    (hcont : containerBody container.kind = some body)
    (hidx : body.findIdx? (fun stmt => containsSpan stmt node.span) = some i)
    (hnext : body[i + 1]? = some nextSpan)
    (hfind : ctx.nodes.find? (fun n => n.span == nextSpan) = some next) :
    get_next_statement ctx node (pre ++ container :: rest) = some next ∧
    ∀ e, is_semicolon_required ctx node (pre ++ container :: rest) e =
      (startsWithHazardChar (trimStart (source_range ctx next.span)) &&
        (e || endsWithContinuable (trimEnd (source_range ctx node.span)))) := by
  have hlt : i + 1 < body.length := by
    by_contra hc
    rw [List.getElem?_eq_none (Nat.le_of_not_lt hc)] at hnext
    cases hnext
  have hmain : get_next_statement ctx node (pre ++ container :: rest) =
      some next := by
    rw [get_next_statement_skip ctx node pre (container :: rest) hpre]
    simp only [get_next_statement, hcont]
    simp only [find_next_in_body]
    rw [hidx]
    simp only [hlt, if_true, hnext]
    exact hfind
  refine ⟨hmain, fun e => ?_⟩
  unfold is_semicolon_required
  rw [hmain]
  cases hs : startsWithHazardChar (trimStart (source_range ctx next.span)) <;>
    cases e <;>
      cases he : endsWithContinuable (trimEnd (source_range ctx node.span)) <;>
        simp_all

theorem find_semicolon_position_some (ctx : LintContext) (span : Span)
    (sp : Span) (h : find_semicolon_position ctx span = some sp) :
    ∃ pos, rfindIdx (source_range ctx span) ';' = some pos ∧
      pos < u32Bound ∧ sp = ⟨span.start + pos, span.start + pos + 1⟩ := by
  unfold find_semicolon_position at h
  split at h
  · rename_i pos hp
    split at h
    · rename_i hlt
      cases h
      exact ⟨pos, hp, hlt, rfl⟩
    · cases h
  · cases h

theorem check_statement_semi_shape (mode : SemiMode) (ctx : LintContext)
    (node : AstNode) (ancestors : List AstNode) (span : Span) (e : Bool)
    (d : Diagnostic)
    (h : check_statement_semi mode ctx node ancestors span e = some d) :
    (∃ pos, rfindIdx (source_range ctx span) ';' = some pos ∧
      pos < (source_range ctx span).length ∧
      d = ⟨Message.unnecessarySemicolon,
        ⟨span.start + pos, span.start + pos + 1⟩,
        Fix.delete ⟨span.start + pos, span.start + pos + 1⟩⟩) ∨
    d = ⟨Message.missingSemicolon, ⟨span.«end», span.«end»⟩,
      Fix.insertAfter span [';']⟩ := by
  cases mode with
  | never =>
    simp only [check_statement_semi] at h
    split at h
    · split at h
      · split at h
        · rename_i sp hf
          obtain ⟨pos, hp, hlt, hsp⟩ :=
            find_semicolon_position_some ctx span sp hf
          subst hsp
          cases h
          exact Or.inl ⟨pos, hp, rfindIdx_lt_length hp, rfl⟩
        · cases h
      · cases h
    · split at h
      · cases h
        exact Or.inr rfl
      · cases h
  | always =>
    simp only [check_statement_semi] at h
    split at h
    · cases h
      exact Or.inr rfl
    · cases h

theorem run_eq_check (mode : SemiMode) (ctx : LintContext) (node : AstNode)
    (ancestors : List AstNode) (d : Diagnostic)
    (h : run mode ctx node ancestors = some d) :
    ∃ e, check_statement_semi mode ctx node ancestors node.span e =
      some d := by
  cases hk : node.kind <;> rw [run, hk] at h
  case exportNamedDeclaration b =>
    cases b
    · exact ⟨false, h⟩
    · cases h
  case exportDefaultDeclaration b =>
    cases b
    · cases h
    · exact ⟨false, h⟩
  all_goals first
    | cases h
    | exact ⟨_, h⟩

/-- Claim C8: the fix of every emitted diagnostic is local to the node.
A delete fix covers exactly one character, lies inside the node span,
and that character is the last semicolon of the node source text; an
insert fix inserts exactly the semicolon string right after the node
span and the diagnostic sits at the zero width span at the node end. -/
theorem edits_local (mode : SemiMode) (ctx : LintContext) (node : AstNode)
    (ancestors : List AstNode) (d : Diagnostic)
    (hrun : run mode ctx node ancestors = some d) :
    (∀ s, d.fix = Fix.delete s →
      s.«end» = s.start + 1 ∧
      node.span.start ≤ s.start ∧ s.«end» ≤ node.span.«end» ∧
      ∃ pos, rfindIdx (source_range ctx node.span) ';' = some pos ∧
        s.start = node.span.start + pos ∧
        (source_range ctx node.span)[pos]? = some ';') ∧
    (∀ sp txt, d.fix = Fix.insertAfter sp txt →
      sp = node.span ∧ txt = [';'] ∧
      d.label = ⟨node.span.«end», node.span.«end»⟩) := by
  obtain ⟨e, hch⟩ := run_eq_check mode ctx node ancestors d hrun
  rcases check_statement_semi_shape mode ctx node ancestors node.span e d hch
    with ⟨pos, hp, hplen, hd⟩ | hd
  · subst hd
    constructor
    · intro s hs
      simp only [Fix.delete.injEq] at hs
      subst hs
      have hbound := length_source_range ctx node.span
      refine ⟨rfl, Nat.le_add_right _ _, ?_,
        pos, hp, rfl, rfindIdx_getElem hp⟩
      show node.span.start + pos + 1 ≤ node.span.«end»
      omega
    · intro sp txt hs
      cases hs
  · subst hd
    constructor
    · intro s hs
      cases hs
    · intro sp txt hs
      simp only [Fix.insertAfter.injEq] at hs
      exact ⟨hs.1.symm, hs.2.symm, rfl⟩

/- Concrete example trees used by the closed instances below. -/

def exA_prog : AstNode := ⟨Kind.program [⟨0, 10⟩], ⟨0, 10⟩⟩

def exA_vd : AstNode := ⟨Kind.variableDeclaration, ⟨0, 10⟩⟩

def exA_ctx : LintContext := ⟨"var a = b;".toList, [exA_prog, exA_vd]⟩

def exB_prog : AstNode := ⟨Kind.program [⟨0, 9⟩], ⟨0, 9⟩⟩

def exB_vd : AstNode := ⟨Kind.variableDeclaration, ⟨0, 9⟩⟩

def exB_ctx : LintContext := ⟨"var a = b".toList, [exB_prog, exB_vd]⟩

def exC_prog : AstNode := ⟨Kind.program [⟨0, 1⟩, ⟨2, 5⟩], ⟨0, 5⟩⟩

def exC_es1 : AstNode := ⟨Kind.expressionStatement, ⟨0, 1⟩⟩

def exC_es2 : AstNode := ⟨Kind.expressionStatement, ⟨2, 5⟩⟩

def exC_ctx : LintContext := ⟨"a\n(b)".toList, [exC_prog, exC_es1, exC_es2]⟩

def exD_prog : AstNode := ⟨Kind.program [⟨0, 19⟩, ⟨20, 25⟩], ⟨0, 25⟩⟩

def exD_for : AstNode := ⟨Kind.forStatement, ⟨0, 19⟩⟩

def exD_vd : AstNode := ⟨Kind.variableDeclaration, ⟨5, 14⟩⟩

def exD_es : AstNode := ⟨Kind.expressionStatement, ⟨20, 25⟩⟩

def exD_ctx : LintContext :=
  ⟨"for (var i = 0;;) ;\n(y)()".toList, [exD_prog, exD_for, exD_vd, exD_es]⟩

def flipA_prog : AstNode := ⟨Kind.program [⟨0, 9⟩, ⟨10, 13⟩], ⟨0, 13⟩⟩

def flipA_vd : AstNode := ⟨Kind.variableDeclaration, ⟨0, 9⟩⟩

def flipA_es : AstNode := ⟨Kind.expressionStatement, ⟨10, 13⟩⟩

def flipA_ctx : LintContext :=
  ⟨"var a = b\n++c".toList, [flipA_prog, flipA_vd, flipA_es]⟩

def flipB_prog : AstNode := ⟨Kind.program [⟨0, 10⟩, ⟨11, 14⟩], ⟨0, 14⟩⟩

def flipB_vd : AstNode := ⟨Kind.variableDeclaration, ⟨0, 10⟩⟩

def flipB_es : AstNode := ⟨Kind.expressionStatement, ⟨11, 14⟩⟩

def flipB_ctx : LintContext :=
  ⟨"var a = b;\n++c".toList, [flipB_prog, flipB_vd, flipB_es]⟩

def big_src : List Char := List.replicate 4294967296 'a' ++ [';']

def big_span : Span := ⟨0, 4294967297⟩

def big_node : AstNode := ⟨Kind.expressionStatement, big_span⟩

def big_ctx : LintContext := ⟨big_src, [big_node]⟩

theorem big_len : big_src.length = 4294967297 := by
  rw [big_src, List.length_append, List.length_replicate]
  rfl

theorem big_source_range : source_range big_ctx big_span = big_src := by
  show List.take (4294967297 - 0) (List.drop 0 big_src) = big_src
  rw [Nat.sub_zero, List.drop_zero]
  exact List.take_of_length_le (by rw [big_len])

theorem big_rfind :
    rfindIdx (source_range big_ctx big_span) ';' = some 4294967296 := by
  rw [big_source_range, big_src, rfindIdx_concat_semi, List.length_replicate]

theorem big_hasSemi :
    hasSemicolonText (source_range big_ctx big_span) = true := by
  rw [big_source_range, big_src]
  exact hasSemicolonText_concat_semi _

theorem big_req : is_semicolon_required big_ctx big_node [] false = false :=
  rfl

/-- Claim C7 fails on the code: in never mode the fixes are not
idempotent. On the two statement source with a variable declaration
followed by a prefix increment on the next line, the checker inserts a
semicolon at offset nine; re running it on the fixed source, where the
same two statements parse with the semicolon inside the declaration
span, flags that very semicolon as unnecessary and its fix deletes it
again. -/
theorem fix_not_idempotent :
    check_statement_semi SemiMode.never flipA_ctx flipA_vd [flipA_prog]
      ⟨0, 9⟩ false =
      some ⟨Message.missingSemicolon, ⟨9, 9⟩, Fix.insertAfter ⟨0, 9⟩ [';']⟩ ∧
    check_statement_semi SemiMode.never flipB_ctx flipB_vd [flipB_prog]
      ⟨0, 10⟩ false =
      some ⟨Message.unnecessarySemicolon, ⟨9, 10⟩, Fix.delete ⟨9, 10⟩⟩ := by
  decide

theorem never_mode_policy_witness :
    check_statement_semi SemiMode.never exC_ctx exC_es1 [exC_prog] ⟨0, 1⟩
      true =
      some ⟨Message.missingSemicolon, ⟨1, 1⟩, Fix.insertAfter ⟨0, 1⟩ [';']⟩ :=
  (never_mode_policy exC_ctx exC_es1 [exC_prog] ⟨0, 1⟩ true (by decide)).2.2.1
    (by decide) (by decide)

theorem hazard_predicate_iff_witness :
    is_semicolon_required exC_ctx exC_es1 [exC_prog] true = true :=
  (hazard_predicate_iff exC_ctx exC_es1 [exC_prog] true).mpr
    ⟨exC_es2, by decide, by decide, Or.inl rfl⟩

theorem last_statement_no_next_witness :
    get_next_statement exC_ctx exC_es2 [exC_prog] = none ∧
    is_semicolon_required exC_ctx exC_es2 [exC_prog] true = false := by
  have h := last_statement_no_next exC_ctx exC_es2 [] exC_prog []
    [⟨0, 1⟩, ⟨2, 5⟩] (by simp) (by decide) (by decide)
  exact ⟨h.1, h.2 true⟩

theorem always_mode_policy_witness :
    check_statement_semi SemiMode.always exB_ctx exB_vd [exB_prog] ⟨0, 9⟩
      false =
      some ⟨Message.missingSemicolon, ⟨9, 9⟩, Fix.insertAfter ⟨0, 9⟩ [';']⟩ := by
  have h := (always_mode_policy exB_ctx exB_vd [exB_prog] ⟨0, 9⟩ false).2.1
    (by decide)
  rw [h]
  decide

theorem overflow_skip_witness :
    find_semicolon_position big_ctx big_span = none ∧
    check_statement_semi SemiMode.never big_ctx big_node [] big_span false =
      none :=
  overflow_skip big_ctx big_node [] big_span false 4294967296 big_rfind
    (Nat.le_refl _) big_hasSemi big_req

def exA_semi_span : Span := ⟨9, 10⟩

def exA_diag : Diagnostic :=
  ⟨Message.unnecessarySemicolon, exA_semi_span, Fix.delete exA_semi_span⟩

theorem edits_local_witness :
    exA_semi_span.«end» = exA_semi_span.start + 1 ∧
    exA_vd.span.start ≤ exA_semi_span.start ∧
    exA_semi_span.«end» ≤ exA_vd.span.«end» := by
  have h := (edits_local SemiMode.never exA_ctx exA_vd [exA_prog] exA_diag
    (by decide)).1 exA_semi_span (by decide)
  exact ⟨h.1, h.2.1, h.2.2.1⟩

theorem checkable_always_flagged_witness :
    should_have_semicolon exB_vd = true ∧
    run SemiMode.always exB_ctx exB_vd [exB_prog] =
      some ⟨Message.missingSemicolon, ⟨9, 9⟩, Fix.insertAfter ⟨0, 9⟩ [';']⟩ := by
  have h := checkable_always_flagged exB_ctx exB_vd [exB_prog] (by decide)
  exact ⟨h.1, h.2 (by decide)⟩

theorem nested_node_hazard_witness :
    get_next_statement exD_ctx exD_vd [exD_for, exD_prog] = some exD_es ∧
    is_semicolon_required exD_ctx exD_vd [exD_for, exD_prog] false = true := by
  have h := nested_node_hazard exD_ctx exD_vd [exD_for] exD_prog []
    [⟨0, 19⟩, ⟨20, 25⟩] 0 ⟨20, 25⟩ exD_es (by decide) (by decide) (by decide)
    (by decide) (by decide)
  exact ⟨h.1, (h.2 false).trans (by decide)⟩


end Semi
